import Mathlib

/-!
Verification of the versioned deserialization resolver of `serde-versioned`
(`src/lib.rs`).

The resolver is embedded shallowly:

* `DeError` models the deserializer error type `Ds::Error` of serde.  Such an
  error is either produced by `serde::de::Error::custom` (constructor
  `DeError.custom`) or is some other error of the underlying deserializer,
  e.g. a syntax error raised while capturing the raw input into a `Content`
  tree (constructor `DeError.parse`).
* `FromVersionImpl Content R` models one implementation of the trait
  `FromVersion<Ver<V>> for R`: an associated wire type `VersionType`, the
  (serde-derived) structural decoder of that wire type against a captured
  content tree, and the author-supplied converter `convert`.
* `FromVersionImpl.deserialize_versioned` is the default method body of
  `FromVersion::deserialize_versioned`.
* `currentImpl` is the blanket `impl<T> FromVersion<Ver<Current>> for T`.
* `Versions.deserialize` is the body of the macro-generated associated
  function `Versions::<Ver<Current>, Ver<V1>, ...>::deserialize`, stated
  generically over the list of legacy `FromVersion` implementations: capture
  the content (`Content::deserialize(d)?`), try the current implementation,
  then chain `.or_else(|_| ...)` over the legacy implementations in declared
  order.
* `impl_versions` and `peel` model the token-list recursion of the
  `impl_versions!` / `peel!` macros, computing the arities (number of `Ver`
  type slots, the `Ver<Current>` slot included) for which a `deserialize`
  entry point is generated.
-/

/-- Model of the serde deserializer error type `Ds::Error`.
`custom` is `serde::de::Error::custom(msg)`; `parse` stands for any other
error of the underlying deserializer (e.g. malformed raw input discovered
while capturing it into a `Content` tree). -/
inductive DeError where
  | custom (msg : String)
  | parse (msg : String)
  deriving Repr, DecidableEq

/-- Model of one implementation of `FromVersion<Ver<V>> for R` from
`src/lib.rs`: the associated type `VersionType`, the structural decode of
`VersionType` from a captured content tree (in Rust
`Self::VersionType::deserialize(ContentRefDeserializer::<Ds::Error>::new(content))`),
and the author-supplied conversion
`fn convert(v: Self::VersionType) -> Result<Self, Box<dyn Error>>`
(the boxed dynamic error is modelled as a `String`). -/
structure FromVersionImpl (Content R : Type) : Type 1 where
  VersionType : Type
  deserializeVersionType : Content → Except DeError VersionType
  convert : VersionType → Except String R

/-- Default method body of `FromVersion::deserialize_versioned`
(`src/lib.rs` lines 28-43): if the wire type structurally decodes the
content, return `convert(res).map_err(serde::de::Error::custom)`; otherwise
return `Err(custom("data did not match any version type"))`. -/
def FromVersionImpl.deserialize_versioned {Content R : Type}
    (i : FromVersionImpl Content R) (content : Content) : Except DeError R :=
  match i.deserializeVersionType content with
  | .ok res => (i.convert res).mapError DeError.custom
  | .error _ => .error (DeError.custom "data did not match any version type")

/-- The blanket `impl<T> FromVersion<Ver<Current>> for T` (`src/lib.rs`
lines 46-55): `VersionType = Self` and `convert` is `Ok` on its argument.
`dec` is the serde `Deserialize` implementation of `T` itself, applied to a
content tree. -/
def currentImpl {Content R : Type} (dec : Content → Except DeError R) :
    FromVersionImpl Content R :=
  { VersionType := R
    deserializeVersionType := dec
    convert := fun v => .ok v }

/-- Model of Rust `Result::or_else`: keep an `Ok`, map an `Err` through the
closure. -/
def orElseResult {E A : Type} (a : Except E A) (f : E → Except E A) :
    Except E A :=
  match a with
  | .ok v => .ok v
  | .error e => f e

/-- The `.or_else(|_| FromVersion::<Ver<Vk>>::deserialize_versioned(&content))`
chain of the macro-generated `Versions::deserialize`, folded over the legacy
implementations in declared order, starting from the result of the first
(current) trial. -/
def versionsFold {Content R : Type} (content : Content)
    (legacy : List (FromVersionImpl Content R)) (init : Except DeError R) :
    Except DeError R :=
  legacy.foldl
    (fun acc i => orElseResult acc (fun _ => i.deserialize_versioned content))
    init

/-- Body of the macro-generated associated function
`Versions::<Ver<Current>, Ver<V1>, ..., Ver<Vk>>::deserialize`
(`src/lib.rs` lines 88-106), stated generically over the list of legacy
implementations.  `d` is the result of `Content::deserialize(d)` (the `?`
propagates its error); on success the current implementation is tried first
and the legacy implementations are chained with `.or_else(|_| ...)` in
declared order. -/
def Versions.deserialize {Content R : Type} (d : Except DeError Content)
    (dec : Content → Except DeError R)
    (legacy : List (FromVersionImpl Content R)) : Except DeError R :=
  match d with
  | .error e => .error e
  | .ok content =>
      versionsFold content legacy
        ((currentImpl dec).deserialize_versioned content)

/-- The last trial of a resolution call: the last legacy implementation in
declared order, or the current implementation when no legacy implementation
is registered.  In the `or_else` chain the error surfaced on exhaustion is
exactly this trial's error. -/
def lastTrial {Content R : Type} (content : Content)
    (dec : Content → Except DeError R)
    (legacy : List (FromVersionImpl Content R)) : Except DeError R :=
  match legacy.getLast? with
  | some i => i.deserialize_versioned content
  | none => (currentImpl dec).deserialize_versioned content

mutual

/-- Model of the `impl_versions!` macro (`src/lib.rs` lines 85-106) on its
token list: `impl { }` and `impl { $first, }` generate nothing; with tokens
`$first, $versions,*` it generates one `deserialize` entry point for
`Versions<Ver<Current>, $(Ver<$versions>,)*>` — an arity of
`1 + |versions|` filled `Ver` slots — and then recurses through `peel!` on
the same token list.  The function returns the arities of the generated
entry points in generation order. -/
def impl_versions : List String → List Nat
  | [] => []
  | [_] => []
  | first :: v :: rest => (1 + (v :: rest).length) :: peel (v :: rest) [first]
termination_by l => (l.length, 1, 0)
decreasing_by
  simp_arith
  exact Prod.Lex.right _ (Prod.Lex.left _ _ (by omega))

/-- Model of the `peel!` macro (`src/lib.rs` lines 73-83) with an explicit
stack: it moves tokens from the head of the remaining list onto the stack
until one token remains, drops that last token, and re-invokes
`impl_versions!` on the stack.  (The stackless entry rule
`peel!(last { $first, $($versions,)+ })` corresponds to
`peel versions [first]`, which is how `impl_versions` calls it.) -/
def peel : List String → List String → List Nat
  | [], _ => []
  | [_], stack => impl_versions stack
  | x :: y :: rest, stack => peel (y :: rest) (stack ++ [x])
termination_by l stack => (l.length + stack.length, 0, l.length)
decreasing_by
  all_goals simp_arith [List.length_append]
  · exact Prod.Lex.left _ _ (by omega)
  · exact Prod.Lex.right _ (Prod.Lex.right _ (by omega))

end

/-- The token list `V0, V1, ..., V9` that `impl_versions!` is invoked with
at `src/lib.rs` line 108. -/
def versionsTokens : List String :=
  ["V0", "V1", "V2", "V3", "V4", "V5", "V6", "V7", "V8", "V9"]

/-! ### Concrete fixtures

Small concrete instantiations (content trees are plain strings, the current
type is `Nat`) used to exhibit witnesses and counterexamples. -/

/-- Concrete current-type decoder that always fails with an error of the
underlying deserializer (the current type never structurally matches). -/
def failDec : String → Except DeError Nat := fun _ => .error (DeError.parse "no")

/-- Concrete current-type decoder that decodes a string content to its
length. -/
def lenDec : String → Except DeError Nat := fun s => .ok s.length

/-- Concrete legacy implementation that structurally matches any string
content and converts it to the constant `n`. -/
def legacyConst (n : Nat) : FromVersionImpl String Nat :=
  { VersionType := String
    deserializeVersionType := fun s => .ok s
    convert := fun _ => .ok n }

/-- Concrete legacy implementation that structurally matches any string
content but whose converter always fails. -/
def legacyConvFail : FromVersionImpl String Nat :=
  { VersionType := String
    deserializeVersionType := fun s => .ok s
    convert := fun _ => .error "conv boom" }

/-- Concrete legacy implementation that never structurally matches. -/
def legacyMismatch : FromVersionImpl String Nat :=
  { VersionType := String
    deserializeVersionType := fun _ => .error (DeError.custom "structural")
    convert := fun s => .ok s.length }

/-! ### Helper lemmas about the trial chain -/

theorem deserialize_ok_capture {Content R : Type} (content : Content)
    (dec : Content → Except DeError R)
    (legacy : List (FromVersionImpl Content R)) :
    Versions.deserialize (.ok content) dec legacy =
      versionsFold content legacy
        ((currentImpl dec).deserialize_versioned content) := rfl

theorem versionsFold_cons {Content R : Type} (content : Content)
    (i : FromVersionImpl Content R) (l : List (FromVersionImpl Content R))
    (init : Except DeError R) :
    versionsFold content (i :: l) init =
      versionsFold content l
        (orElseResult init (fun _ => i.deserialize_versioned content)) := rfl

theorem versionsFold_ok {Content R : Type} (content : Content)
    (l : List (FromVersionImpl Content R)) (v : R) :
    versionsFold content l (.ok v) = .ok v := by
  induction l with
  | nil => rfl
  | cons i l ih => simpa [versionsFold_cons, orElseResult] using ih

theorem versionsFold_append {Content R : Type} (content : Content)
    (l₁ l₂ : List (FromVersionImpl Content R)) (init : Except DeError R) :
    versionsFold content (l₁ ++ l₂) init =
      versionsFold content l₂ (versionsFold content l₁ init) := by
  simp [versionsFold, List.foldl_append]

theorem versionsFold_error_cons {Content R : Type} (content : Content)
    (i : FromVersionImpl Content R) (l : List (FromVersionImpl Content R))
    (e : DeError) :
    versionsFold content (i :: l) (.error e) =
      versionsFold content l (i.deserialize_versioned content) := rfl

/-- If every trial in the list fails, a chain started from an error stays an
error (with some error value). -/
theorem versionsFold_error_of_all {Content R : Type} (content : Content)
    (l : List (FromVersionImpl Content R))
    (h : ∀ i ∈ l, ∃ e, i.deserialize_versioned content = .error e) :
    ∀ e₀, ∃ e₁, versionsFold content l (.error e₀) = .error e₁ := by
  induction l with
  | nil => exact fun e₀ => ⟨e₀, rfl⟩
  | cons i l ih =>
      intro e₀
      obtain ⟨e, he⟩ := h i (by simp)
      rw [versionsFold_error_cons, he]
      exact ih (fun j hj => h j (by simp [hj])) e

/-- If every trial in the list fails with one and the same error value, a
chain started from that error returns exactly it. -/
theorem versionsFold_const_error {Content R : Type} (content : Content)
    (l : List (FromVersionImpl Content R)) (e : DeError)
    (h : ∀ i ∈ l, i.deserialize_versioned content = .error e) :
    versionsFold content l (.error e) = .error e := by
  induction l with
  | nil => rfl
  | cons i l ih =>
      rw [versionsFold_error_cons, h i (by simp)]
      exact ih (fun j hj => h j (by simp [hj]))

/-- An erroring chain pins down where the error came from: either the list
is empty and it is the initial (current-trial) error, or it is the error of
the last trial of the list. -/
theorem versionsFold_error_elim {Content R : Type} (content : Content)
    (l : List (FromVersionImpl Content R)) :
    ∀ init e, versionsFold content l init = .error e →
      (l = [] ∧ init = .error e) ∨
      (∃ last, l.getLast? = some last ∧
        last.deserialize_versioned content = .error e) := by
  induction l with
  | nil => exact fun init e h => Or.inl ⟨rfl, h⟩
  | cons i l ih =>
      intro init e h
      rw [versionsFold_cons] at h
      rcases ih _ _ h with ⟨hl, hinit⟩ | ⟨last, hlast, herr⟩
      · subst hl
        refine Or.inr ⟨i, by simp, ?_⟩
        cases init with
        | ok v => simp [orElseResult] at hinit
        | error e₀ => simpa [orElseResult] using hinit
      · refine Or.inr ⟨last, ?_, herr⟩
        cases l with
        | nil => simp at hlast
        | cons x xs => simpa [List.getLast?_cons_cons] using hlast

/-! ### Helper lemmas about a single trial -/

theorem fromVersion_trial_ok {Content R : Type} (i : FromVersionImpl Content R)
    (content : Content) (v : i.VersionType) (c : R)
    (hd : i.deserializeVersionType content = .ok v) (hc : i.convert v = .ok c) :
    i.deserialize_versioned content = .ok c := by
  simp [FromVersionImpl.deserialize_versioned, hd, hc, Except.mapError]

theorem fromVersion_trial_convert_error {Content R : Type}
    (i : FromVersionImpl Content R) (content : Content) (v : i.VersionType)
    (msg : String)
    (hd : i.deserializeVersionType content = .ok v)
    (hc : i.convert v = .error msg) :
    i.deserialize_versioned content = .error (DeError.custom msg) := by
  simp [FromVersionImpl.deserialize_versioned, hd, hc, Except.mapError]

theorem fromVersion_trial_mismatch {Content R : Type}
    (i : FromVersionImpl Content R) (content : Content) (e : DeError)
    (hd : i.deserializeVersionType content = .error e) :
    i.deserialize_versioned content =
      .error (DeError.custom "data did not match any version type") := by
  simp [FromVersionImpl.deserialize_versioned, hd]

theorem current_trial_ok {Content R : Type} (dec : Content → Except DeError R)
    (content : Content) (v : R) (h : dec content = .ok v) :
    (currentImpl dec).deserialize_versioned content = .ok v := by
  simp [currentImpl, FromVersionImpl.deserialize_versioned, h, Except.mapError]

theorem current_trial_mismatch {Content R : Type}
    (dec : Content → Except DeError R) (content : Content) (e : DeError)
    (h : dec content = .error e) :
    (currentImpl dec).deserialize_versioned content =
      .error (DeError.custom "data did not match any version type") := by
  simp [currentImpl, FromVersionImpl.deserialize_versioned, h]

/-- A chain started from an error, whose prefix fails throughout, returns the
result of the first succeeding trial `r` no matter what follows it. -/
theorem versionsFold_unique_ok {Content R : Type} (content : Content)
    (l₁ l₂ : List (FromVersionImpl Content R)) (r : FromVersionImpl Content R)
    (v : R)
    (h₁ : ∀ i ∈ l₁, ∃ e, i.deserialize_versioned content = .error e)
    (hr : r.deserialize_versioned content = .ok v) (e₀ : DeError) :
    versionsFold content (l₁ ++ r :: l₂) (.error e₀) = .ok v := by
  obtain ⟨e₁, he₁⟩ := versionsFold_error_of_all content l₁ h₁ e₀
  rw [versionsFold_append, he₁, versionsFold_error_cons, hr, versionsFold_ok]

/-! ### Claim theorems -/

/-- C1: for every content buffer and every registration list containing two
legacy registrations R1 (earlier in declared order) and R2 (later) whose
legacy wire types both structurally decode the buffer and whose converters
both succeed, resolution returns R1's converted result, never R2's (in the
scenario of spec property P2: the current type does not match the buffer and
no registration before R1 succeeds). -/
theorem ordered_fallback_first_match_wins {Content R : Type}
    (content : Content) (dec : Content → Except DeError R)
    (pre mid post : List (FromVersionImpl Content R))
    (r1 r2 : FromVersionImpl Content R)
    (v1 : r1.VersionType) (c1 : R) (v2 : r2.VersionType) (c2 : R)
    (e0 : DeError)
    (hcur : dec content = .error e0)
    (hpre : ∀ i ∈ pre, ∃ e, i.deserialize_versioned content = .error e)
    (h1d : r1.deserializeVersionType content = .ok v1)
    (h1c : r1.convert v1 = .ok c1)
    (_h2d : r2.deserializeVersionType content = .ok v2)
    (_h2c : r2.convert v2 = .ok c2) :
    Versions.deserialize (.ok content) dec (pre ++ r1 :: mid ++ r2 :: post) =
      .ok c1 := by
  rw [deserialize_ok_capture, current_trial_mismatch dec content e0 hcur]
  have h := versionsFold_unique_ok content pre (mid ++ r2 :: post) r1 c1 hpre
    (fromVersion_trial_ok r1 content v1 c1 h1d h1c)
    (DeError.custom "data did not match any version type")
  simpa using h

/-- Witness for C1: with a non-matching current decoder, a non-matching
earlier registration, and two structurally-matching registrations converting
to 5 and 7, resolution returns 5, the first one's result. -/
theorem ordered_fallback_first_match_wins_witness :
    Versions.deserialize (.ok "x") failDec
      ([legacyMismatch] ++ legacyConst 5 :: [] ++ legacyConst 7 :: []) =
      .ok 5 :=
  ordered_fallback_first_match_wins "x" failDec [legacyMismatch] [] []
    (legacyConst 5) (legacyConst 7) "x" 5 "x" 7 (DeError.parse "no") rfl
    (by
      intro i hi
      simp only [List.mem_singleton] at hi
      subst hi
      exact ⟨DeError.custom "data did not match any version type", rfl⟩)
    rfl rfl rfl rfl

/-- C2: a registration whose legacy wire type structurally decodes the
buffer but whose converter returns an error yields a failing trial (it is
skipped like a structural mismatch), and resolution proceeds to later
registrations: a later registration that decodes and converts successfully
still determines the result. -/
theorem conversion_failure_falls_through {Content R : Type}
    (content : Content) (dec : Content → Except DeError R)
    (pre post : List (FromVersionImpl Content R))
    (r nxt : FromVersionImpl Content R)
    (v : r.VersionType) (msg : String) (w : nxt.VersionType) (c : R)
    (e0 : DeError)
    (hcur : dec content = .error e0)
    (hpre : ∀ i ∈ pre, ∃ e, i.deserialize_versioned content = .error e)
    (hrd : r.deserializeVersionType content = .ok v)
    (hrc : r.convert v = .error msg)
    (hnd : nxt.deserializeVersionType content = .ok w)
    (hnc : nxt.convert w = .ok c) :
    r.deserialize_versioned content = .error (DeError.custom msg) ∧
    Versions.deserialize (.ok content) dec (pre ++ r :: nxt :: post) =
      .ok c := by
  have hrtrial := fromVersion_trial_convert_error r content v msg hrd hrc
  refine ⟨hrtrial, ?_⟩
  rw [deserialize_ok_capture, current_trial_mismatch dec content e0 hcur]
  have hpre' : ∀ i ∈ pre ++ [r], ∃ e, i.deserialize_versioned content = .error e := by
    intro i hi
    rcases List.mem_append.mp hi with h | h
    · exact hpre i h
    · simp only [List.mem_singleton] at h
      subst h
      exact ⟨DeError.custom msg, hrtrial⟩
  have := versionsFold_unique_ok content (pre ++ [r]) post nxt c hpre'
    (fromVersion_trial_ok nxt content w c hnd hnc)
    (DeError.custom "data did not match any version type")
  simpa [List.append_assoc] using this

/-- Witness for C2: a registration that structurally matches but whose
converter fails is skipped, and the following registration's converted
value 5 is returned. -/
theorem conversion_failure_falls_through_witness :
    legacyConvFail.deserialize_versioned "x" =
      .error (DeError.custom "conv boom") ∧
    Versions.deserialize (.ok "x") failDec
      ([] ++ legacyConvFail :: legacyConst 5 :: []) = .ok 5 :=
  conversion_failure_falls_through "x" failDec [] [] legacyConvFail
    (legacyConst 5) "x" "conv boom" "x" 5 (DeError.parse "no") rfl
    (by intro i hi; simp at hi) rfl rfl rfl rfl

/-- C3: for every value v of the current type, capturing v's own serialized
form into a content buffer (so that the current type's decoder recovers v
from it) and resolving it returns v unchanged; the result does not depend on
the legacy registration list at all, so no legacy decode or converter is
consulted. -/
theorem current_fast_path_roundtrip {Content R : Type}
    (content : Content) (dec : Content → Except DeError R) (v : R)
    (hround : dec content = .ok v)
    (legacy legacy2 : List (FromVersionImpl Content R)) :
    Versions.deserialize (.ok content) dec legacy = .ok v ∧
    Versions.deserialize (.ok content) dec legacy =
      Versions.deserialize (.ok content) dec legacy2 := by
  have h := current_trial_ok dec content v hround
  constructor
  · rw [deserialize_ok_capture, h, versionsFold_ok]
  · rw [deserialize_ok_capture, deserialize_ok_capture, h,
      versionsFold_ok, versionsFold_ok]

/-- Witness for C3: a content that the current decoder maps back to 2
resolves to 2, and the result is the same with a converter-failing legacy
list as with a never-matching one. -/
theorem current_fast_path_roundtrip_witness :
    Versions.deserialize (.ok "xy") lenDec [legacyConvFail] = .ok 2 ∧
    Versions.deserialize (.ok "xy") lenDec [legacyConvFail] =
      Versions.deserialize (.ok "xy") lenDec [legacyMismatch] :=
  current_fast_path_roundtrip "xy" lenDec 2 rfl [legacyConvFail]
    [legacyMismatch]

/-- Counterexample to C4: with a successfully captured buffer, a
non-matching current type and a single registration that structurally
matches but whose converter fails, resolution surfaces the converter's own
custom error — which is neither a capture error (capture was `.ok`) nor the
aggregate no-match error. -/
theorem propagation_policy_converter_error_surfaces :
    Versions.deserialize (.ok "x") failDec [legacyConvFail] =
      .error (DeError.custom "conv boom") ∧
    DeError.custom "conv boom" ≠
      DeError.custom "data did not match any version type" ∧
    DeError.custom "conv boom" ≠ DeError.parse "no" := by
  refine ⟨rfl, by decide, by decide⟩

/-- C4 (amended): when resolution fails, the surfaced error is either the
capture error or the error of the final trial (the current trial when no
legacy registration exists, otherwise the last legacy registration's trial);
every non-final per-registration failure is absorbed.  The final trial's
error is the aggregate no-match error when that trial fails structurally,
but a converter error of the final trial surfaces as that converter's custom
error. -/
theorem propagation_policy_last_trial_error {Content R : Type}
    (d : Except DeError Content) (dec : Content → Except DeError R)
    (legacy : List (FromVersionImpl Content R)) (e : DeError)
    (h : Versions.deserialize d dec legacy = .error e) :
    d = .error e ∨
      ∃ content, d = .ok content ∧
        lastTrial content dec legacy = .error e := by
  cases d with
  | error e0 =>
      left
      simp only [Versions.deserialize, Except.error.injEq] at h
      rw [h]
  | ok content =>
      right
      refine ⟨content, rfl, ?_⟩
      rw [deserialize_ok_capture] at h
      rcases versionsFold_error_elim content legacy _ e h with
        ⟨hl, hinit⟩ | ⟨last, hlast, herr⟩
      · subst hl
        simpa [lastTrial] using hinit
      · simp [lastTrial, hlast, herr]

/-- Witness for C4 (amended): at the counterexample input the surfaced
error "conv boom" is indeed the last trial's error. -/
theorem propagation_policy_last_trial_error_witness :
    (Except.ok "x" : Except DeError String) =
        .error (DeError.custom "conv boom") ∨
      ∃ content, (Except.ok "x" : Except DeError String) = .ok content ∧
        lastTrial content failDec [legacyConvFail] =
          .error (DeError.custom "conv boom") :=
  propagation_policy_last_trial_error (.ok "x") failDec [legacyConvFail]
    (DeError.custom "conv boom") rfl

/-- C5: for every content buffer whose structure matches neither the current
type nor any registered legacy wire type, resolution fails with the single
aggregate no-matching-version error "data did not match any version type"
and produces no value. -/
theorem exhaustion_no_match_error {Content R : Type}
    (content : Content) (dec : Content → Except DeError R)
    (legacy : List (FromVersionImpl Content R))
    (hcur : ∃ e, dec content = .error e)
    (hleg : ∀ i ∈ legacy, ∃ e, i.deserializeVersionType content = .error e) :
    Versions.deserialize (.ok content) dec legacy =
      .error (DeError.custom "data did not match any version type") := by
  obtain ⟨e0, he0⟩ := hcur
  rw [deserialize_ok_capture, current_trial_mismatch dec content e0 he0]
  exact versionsFold_const_error content legacy _ (fun i hi => by
    obtain ⟨e, he⟩ := hleg i hi
    exact fromVersion_trial_mismatch i content e he)

/-- Witness for C5: a buffer matching neither the current type nor the one
registered legacy type resolves to the aggregate no-match error. -/
theorem exhaustion_no_match_error_witness :
    Versions.deserialize (.ok "x") failDec [legacyMismatch] =
      .error (DeError.custom "data did not match any version type") :=
  exhaustion_no_match_error "x" failDec [legacyMismatch]
    ⟨DeError.parse "no", rfl⟩
    (by
      intro i hi
      simp only [List.mem_singleton] at hi
      subst hi
      exact ⟨DeError.custom "structural", rfl⟩)

/-- C6: the current-tag registration is evaluated first (the generated entry
points place `Ver<Current>` in the first slot and try it before the
`or_else` chain), and if reinterpreting the buffer as the current type
succeeds, that value is returned immediately: the result is the same as with
no legacy registrations at all, whatever the legacy list is. -/
theorem current_tried_first_short_circuits {Content R : Type}
    (content : Content) (dec : Content → Except DeError R) (v : R)
    (h : dec content = .ok v)
    (legacy : List (FromVersionImpl Content R)) :
    Versions.deserialize (.ok content) dec legacy = .ok v ∧
    Versions.deserialize (.ok content) dec [] = .ok v := by
  have hct := current_trial_ok dec content v h
  constructor
  · rw [deserialize_ok_capture, hct, versionsFold_ok]
  · rw [deserialize_ok_capture, hct]
    rfl

/-- Witness for C6: a buffer the current decoder accepts (value 1) resolves
to 1 even though the legacy registration would also match and convert
to 5. -/
theorem current_tried_first_short_circuits_witness :
    Versions.deserialize (.ok "x") lenDec [legacyConst 5] = .ok 1 ∧
    Versions.deserialize (.ok "x") lenDec [] = .ok 1 :=
  current_tried_first_short_circuits "x" lenDec 1 rfl [legacyConst 5]

/-- Counterexample to C7: the macro invocation on the ten tokens
`V0, ..., V9` generates no `deserialize` entry point of arity 1 — there is
no `Versions::<Ver<Current>>::deserialize` with the current registration
alone — so an entry point does not exist for every arity from 1 through
10. -/
theorem arity_one_entry_point_missing :
    1 ∉ impl_versions versionsTokens ∧
    10 ∈ impl_versions versionsTokens := by
  constructor
  · simp [versionsTokens, impl_versions, peel]
  · simp [versionsTokens, impl_versions, peel]

/-- C7 (amended): the macro invocation on `V0, ..., V9` generates exactly
the `deserialize` entry points of arities 10 down to 2 — one registration
list per total number of simultaneous version registrations (the `Current`
slot included) from 2 through 10, none beyond 10, and none of arity 1. -/
theorem generated_entry_point_arities :
    impl_versions versionsTokens = [10, 9, 8, 7, 6, 5, 4, 3, 2] := by
  simp [versionsTokens, impl_versions, peel]

/-- C8: if the raw input cannot be captured into a content buffer at all,
the capture error is surfaced to the caller unchanged, whatever the current
decoder and the legacy registration list are — no version trial is ever
attempted. -/
theorem capture_error_surfaced_immediately {Content R : Type} (e : DeError)
    (dec : Content → Except DeError R)
    (legacy : List (FromVersionImpl Content R)) :
    Versions.deserialize (.error e) dec legacy = .error e := rfl

/-- C9: resolution is purely functional over the unchanged buffer: every
trial reinterprets the same content value, so with a single
structurally-valid, successfully-converting registration among otherwise
failing ones, resolving the declared order and resolving the reversed order
pick the same registration and return the same value. -/
theorem resolution_pure_order_reversal {Content R : Type}
    (content : Content) (dec : Content → Except DeError R)
    (pre post : List (FromVersionImpl Content R))
    (r : FromVersionImpl Content R) (v : R)
    (hcur : ∃ e, dec content = .error e)
    (hpre : ∀ i ∈ pre, ∃ e, i.deserialize_versioned content = .error e)
    (hpost : ∀ i ∈ post, ∃ e, i.deserialize_versioned content = .error e)
    (hr : r.deserialize_versioned content = .ok v) :
    Versions.deserialize (.ok content) dec (pre ++ r :: post) = .ok v ∧
    Versions.deserialize (.ok content) dec ((pre ++ r :: post).reverse) =
      .ok v := by
  obtain ⟨e0, he0⟩ := hcur
  have hct := current_trial_mismatch dec content e0 he0
  constructor
  · rw [deserialize_ok_capture, hct]
    exact versionsFold_unique_ok content pre post r v hpre hr _
  · rw [deserialize_ok_capture, hct]
    have hrev : (pre ++ r :: post).reverse = post.reverse ++ r :: pre.reverse := by
      simp
    rw [hrev]
    exact versionsFold_unique_ok content post.reverse pre.reverse r v
      (fun i hi => hpost i (List.mem_reverse.mp hi)) hr _

/-- Witness for C9: with one matching registration between two mismatching
ones, both the declared order and the reversed order resolve to 5. -/
theorem resolution_pure_order_reversal_witness :
    Versions.deserialize (.ok "x") failDec
      ([legacyMismatch] ++ legacyConst 5 :: [legacyMismatch]) = .ok 5 ∧
    Versions.deserialize (.ok "x") failDec
      (([legacyMismatch] ++ legacyConst 5 :: [legacyMismatch]).reverse) =
      .ok 5 :=
  resolution_pure_order_reversal "x" failDec [legacyMismatch]
    [legacyMismatch] (legacyConst 5) 5 ⟨DeError.parse "no", rfl⟩
    (by
      intro i hi
      simp only [List.mem_singleton] at hi
      subst hi
      exact ⟨DeError.custom "data did not match any version type", rfl⟩)
    (by
      intro i hi
      simp only [List.mem_singleton] at hi
      subst hi
      exact ⟨DeError.custom "data did not match any version type", rfl⟩)
    rfl

/-- C10: the built-in current-version registration decodes the buffer
directly as the current type itself (`VersionType = Self`), its converter is
the identity that always returns `Ok`, and its trial therefore fails only at
structural decode (yielding the no-match error), never at conversion. -/
theorem current_version_identity {Content R : Type}
    (dec : Content → Except DeError R) (content : Content) :
    (currentImpl dec).VersionType = R ∧
    (∀ v : R, (currentImpl dec).convert v = .ok v) ∧
    (currentImpl dec).deserialize_versioned content =
      (match dec content with
       | .ok v => .ok v
       | .error _ =>
           .error (DeError.custom "data did not match any version type")) := by
  refine ⟨rfl, fun v => rfl, ?_⟩
  cases h : dec content with
  | ok v => rw [current_trial_ok dec content v h]
  | error e => rw [current_trial_mismatch dec content e h]
